import Mathlib

/-!
Verification of the core engine of the stock-mcp repository: the
time-series alignment step, the rolling percentile computation, the
3-sigma outlier filter, the gap-filling passes, the generic record
filter, and the arithmetic service's division operation.

Numeric cells use `ℚ`; a pandas `NaN` cell is modelled as `none` in
`Option ℚ`.  Functions that can raise in Python return `Except String`.
-/

namespace StockMCP

/-! ## Gap filling (pandas `ffill` / `bfill`)

`ffillAux acc l` propagates the most recent non-missing value `acc`
forward through `l`; `ffill` starts with no previous value, so leading
missing entries stay missing, exactly as `Series.ffill`.  `bfill` is a
reversed forward fill, exactly as `Series.bfill`. -/

def ffillAux {α : Type} : Option α → List (Option α) → List (Option α)
  | _, [] => []
  | _, some v :: t => some v :: ffillAux (some v) t
  | acc, none :: t => acc :: ffillAux acc t

def ffill {α : Type} (l : List (Option α)) : List (Option α) :=
  ffillAux none l

def bfill {α : Type} (l : List (Option α)) : List (Option α) :=
  (ffillAux none l.reverse).reverse

/-! ## Rolling percentile engine (`__calculate_percentile`, lines 907-939)

`validOf` models `x[~np.isnan(x)]`; `safePercentile` models the inner
`safe_percentile` of `__calculate_percentile` (lines 917-924):
fewer than 60 valid observations give a missing result, otherwise the
result is `(current > history).mean() * 100` where `current` is the last
valid observation of the window and `history` the remaining valid
observations.  `windowAt col w i` is the trailing positional window of
at most `w` rows ending at row `i`, as produced by
`rolling(window=w, min_periods=60)`. -/

def validOf (w : List (Option ℚ)) : List ℚ :=
  w.filterMap id

def indicatorMean (bs : List Bool) : ℚ :=
  ((bs.filter (fun b => b)).length : ℚ) / (bs.length : ℚ)

def safePercentile (w : List (Option ℚ)) : Option ℚ :=
  let valid := validOf w
  if valid.length < 60 then none
  else
    match valid.getLast? with
    | none => none
    | some current =>
        some (indicatorMean (valid.dropLast.map (fun h => decide (h < current))) * 100)

def windowAt (col : List (Option ℚ)) (w i : ℕ) : List (Option ℚ) :=
  (col.take (i + 1)).drop (i + 1 - w)

def rawRolling (col : List (Option ℚ)) (w : ℕ) : List (Option ℚ) :=
  (List.range col.length).map (fun i => safePercentile (windowAt col w i))

/-! Positional linear interpolation, modelling
`Series.interpolate(method="linear")` (which ignores the index and
treats values as equally spaced): interior gaps are filled linearly
between the previous and next present values, gaps after the last
present value are filled with that value, leading gaps stay missing. -/

def prevSomeIdx (l : List (Option ℚ)) (i : ℕ) : Option (ℕ × ℚ) :=
  ((List.range i).filterMap (fun j => (l.getD j none).map (fun v => (j, v)))).getLast?

def nextSomeIdx (l : List (Option ℚ)) (i : ℕ) : Option (ℕ × ℚ) :=
  (((List.range l.length).drop (i + 1)).filterMap
    (fun j => (l.getD j none).map (fun v => (j, v)))).head?

def interpAt (l : List (Option ℚ)) (i : ℕ) : Option ℚ :=
  match l.getD i none with
  | some v => some v
  | none =>
      match prevSomeIdx l i, nextSomeIdx l i with
      | some (j, vj), some (k, vk) =>
          some (vj + (vk - vj) * ((i : ℚ) - (j : ℚ)) / ((k : ℚ) - (j : ℚ)))
      | some (_, vj), none => some vj
      | none, _ => none

def interpLinear (l : List (Option ℚ)) : List (Option ℚ) :=
  (List.range l.length).map (interpAt l)

/-- Lines 928-936 of `__calculate_percentile` applied to an already
cleaned value column: the rolling `safe_percentile` pass followed by
the percentile-column smoothing `interpolate("linear").ffill().bfill()`. -/
def calculatePercentileCol (col : List (Option ℚ)) (w : ℕ) : List (Option ℚ) :=
  bfill (ffill (interpLinear (rawRolling col w)))

/-! ## Outlier filter (`__filter_abnormal_3delta`, lines 942-946) and the
PE/PB cleaning pipeline of `get_stock_pe` / `get_stock_pb`

`mean` and `sampleVar` are the pandas column mean and sample variance
(`ddof = 1`) over the present values.  The pandas filter keeps a row
with value `x` iff `mean - 3*std < x < mean + 3*std`; since
`std = sqrt sampleVar ≥ 0` this is equivalent to the square-root-free
condition `(x - mean)^2 < 9 * sampleVar`, which is what we state (for
fewer than two present values the pandas `std` is `NaN`, both bounds
are `NaN`, every comparison is `False` and all rows are dropped; in the
model `sampleVar` then divides by zero giving `0`, and
`(x - mean)^2 < 0` is likewise false for every row).  Rows whose value
is `NaN` fail both comparisons in pandas and are dropped too. -/

def popOf (rows : List (ℚ × Option ℚ)) : List ℚ :=
  (rows.map Prod.snd).filterMap id

def mean (l : List ℚ) : ℚ :=
  (l.foldl (· + ·) 0) / (l.length : ℚ)

def sampleVar (l : List ℚ) : ℚ :=
  (l.foldl (fun a x => a + (x - mean l) ^ 2) 0) / ((l.length : ℚ) - 1)

def filter_abnormal_3delta (rows : List (ℚ × Option ℚ)) : List (ℚ × Option ℚ) :=
  rows.filter (fun r =>
    match r.2 with
    | none => false
    | some x => decide ((x - mean (popOf rows)) ^ 2 < 9 * sampleVar (popOf rows)))

/-- Forward fill of the value column of a dated series, keeping the
dates: models `df["pe"] = df["pe"].fillna(method="ffill")` (line 187)
and the analogous line 214 for `pb`. -/
def ffillRows (rows : List (ℚ × Option ℚ)) : List (ℚ × Option ℚ) :=
  (rows.map Prod.fst).zip (ffill (rows.map Prod.snd))

/-- Lines 187-190 of `get_stock_pe` (and 214-217 of `get_stock_pb`): the
value column is forward-filled FIRST, and the 3-sigma outlier filter is
applied to the forward-filled column. -/
def pe_clean (rows : List (ℚ × Option ℚ)) : List (ℚ × Option ℚ) :=
  filter_abnormal_3delta (ffillRows rows)

/-- Modelled from the spec: "Applied once, before any gap-filling, so
that filled-in values are never laundered into the valid population
used to compute mu/sigma" — the outlier filter running before the
forward fill of the value column.  Used only to compare against
`pe_clean`, which models the code. -/
def spec_pe_clean (rows : List (ℚ × Option ℚ)) : List (ℚ × Option ℚ) :=
  ffillRows (filter_abnormal_3delta rows)

/-! ## Time-series alignment

`merge_asof_backward` models the two `pd.merge_asof(..., on="date",
direction="backward")` calls of `get_single_stock_info` (lines 97-110):
each primary date receives the value of the latest secondary
observation dated at or before it, or a missing value when none exists.

`indicator_merge_col` models lines 154-157 (and 160-163) of
`get_stock_indicator`: an exact-date left merge of a percentile column
onto the price calendar followed by `ffill().bfill()` on the merged
column (secondary dates assumed unique, as in the valuation tables). -/

def merge_asof_backward (primary : List ℚ) (sec : List (ℚ × ℚ)) :
    List (ℚ × Option ℚ) :=
  primary.map (fun d =>
    (d, ((sec.filter (fun p => decide (p.1 ≤ d))).getLast?).map Prod.snd))

def exactLeftLookup (sec : List (ℚ × ℚ)) (d : ℚ) : Option ℚ :=
  (sec.find? (fun p => decide (p.1 = d))).map Prod.snd

def indicator_merge_col (primary : List ℚ) (sec : List (ℚ × ℚ)) :
    List (ℚ × Option ℚ) :=
  primary.zip (bfill (ffill (primary.map (exactLeftLookup sec))))

/-! ## PE cleaning of `get_single_stock_info` (lines 112-114)

A merged `pe` cell is a number, `+inf`, `-inf` or `NaN`.  Line 113
replaces the infinities by `NaN`; line 114 fills every `NaN` with the
median of the whole (already merged) `pe` column.  `medianQ` is the
pandas `Series.median`: present values sorted, middle element for odd
count, average of the two middle elements for even count, `NaN` (here
`none`) for an all-missing column, in which case `fillna` leaves the
column unchanged. -/

inductive PdCell : Type
  | num (q : ℚ)
  | pinf
  | ninf
  | nan
deriving DecidableEq

def replaceInfByNan : PdCell → Option ℚ
  | .num q => some q
  | _ => none

def medianQ (l : List ℚ) : Option ℚ :=
  let s := l.mergeSort (fun a b => decide (a ≤ b))
  if l.length = 0 then none
  else if l.length % 2 = 1 then s[l.length / 2]?
  else
    match s[l.length / 2 - 1]?, s[l.length / 2]? with
    | some a, some b => some ((a + b) / 2)
    | _, _ => none

def single_stock_pe_clean (col : List PdCell) : List (Option ℚ) :=
  let c := col.map replaceInfByNan
  c.map (fun x => x.orElse (fun _ => medianQ (c.filterMap id)))

/-! ## Record filter engine (`apply_filters_for_data_frame`, lines 814-904)

Cells and filter payload values form a tagged union; the table is a
list of rows, each row an association list from column name to cell
(all rows sharing the same column set, as a `DataFrame` does).  Python
exceptions become `Except.error`.  Dates are represented by their
`yyyymmdd` number; `to_datetime` on a string parses the ISO form
`YYYY-MM-DD`.  `evalConditionGen true` is the spec-modelled variant
that also coerces the elements of a list value when the data type is
"date" (used only for claim comparison); `evalConditionGen false`
follows the code, whose `value = pd.to_datetime(value)` is guarded by
`not isinstance(value, (list, tuple))`. -/

inductive Scalar : Type
  | str (s : String)
  | int (n : Int)
  | float (q : ℚ)
  | bool (b : Bool)
  | date (d : ℕ)
deriving DecidableEq

inductive FValue : Type
  | scalar (s : Scalar)
  | list (l : List Scalar)
deriving DecidableEq

def Row : Type := List (String × Scalar)

/-- Python `type(value).__name__` for the payload scalars (a value the
code has already coerced to a date shows up as a pandas `Timestamp`). -/
def typeName : Scalar → String
  | .str _ => "str"
  | .int _ => "int"
  | .float _ => "float"
  | .bool _ => "bool"
  | .date _ => "Timestamp"

/-- Lines 879-883: the data type inferred from the runtime type of the
comparison value, or of its first element for a list value ("str" for
an empty list). -/
def inferDtype : FValue → String
  | .scalar s => typeName s
  | .list [] => "str"
  | .list (x :: _) => typeName x

def splitOnChar (sep : Char) (l : List Char) : List (List Char) :=
  l.foldr (fun c acc =>
    match acc with
    | [] => [[c]]
    | cur :: rest => if c = sep then [] :: cur :: rest else (c :: cur) :: rest) [[]]

def digitVal (c : Char) : Option ℕ :=
  if c.isDigit then some (c.toNat - 48) else none

def digitsToNat : List Char → Option ℕ :=
  fun l => l.foldl (fun acc c => acc.bind (fun n => (digitVal c).map (fun d => n * 10 + d))) (some 0)

def parseDateIso (s : String) : Option ℕ :=
  match splitOnChar (Char.ofNat 45) s.data with
  | [y, m, d] =>
      if y.length = 4 && m.length = 2 && d.length = 2 then
        match digitsToNat y, digitsToNat m, digitsToNat d with
        | some yn, some mn, some dn => some (yn * 10000 + mn * 100 + dn)
        | _, _, _ => none
      else none
  | _ => none

def toDatetimeScalar : Scalar → Except String Scalar
  | .date d => .ok (.date d)
  | .str s =>
      match parseDateIso s with
      | some d => .ok (.date d)
      | none => .error ("to_datetime parse error: " ++ s)
  | _ => .error "to_datetime: unsupported type"

def isDateScalar : Scalar → Bool
  | .date _ => true
  | _ => false

/-- `pd.api.types.is_datetime64_any_dtype(df[col])`: in the row model a
non-empty column whose cells are all dates. -/
def isDatetimeCol (cells : List Scalar) : Bool :=
  !cells.isEmpty && cells.all isDateScalar

def getColumn (df : List Row) (col : String) : Except String (List Scalar) :=
  df.mapM (fun r =>
    match r.lookup col with
    | some v => Except.ok v
    | none => Except.error ("KeyError: " ++ col))

def coerceColumn (df : List Row) (col : String) : Except String (List Row) :=
  df.mapM (fun r => r.mapM (fun kv =>
    if kv.1 = col then (toDatetimeScalar kv.2).map (fun d => (kv.1, d))
    else Except.ok kv))

/-- Lines 887-888 for `cl = false` (the code: only a non-list value is
passed through `pd.to_datetime`); for `cl = true` the spec-modelled
variant that coerces every element of a list value as well. -/
def coerceValue (cl : Bool) : FValue → Except String FValue
  | .scalar s => (toDatetimeScalar s).map .scalar
  | .list es => if cl then (es.mapM toDatetimeScalar).map .list else .ok (.list es)

/-- Lines 884-888: when the resolved data type is "date" and the column
is not already of datetime dtype, the column is converted with
`pd.to_datetime` and the value is converted per `coerceValue`. -/
def dateStage (cl : Bool) (df : List Row) (col : String) (value : FValue)
    (dt : String) : Except String (List Row × FValue) :=
  if dt = "date" then
    match getColumn df col with
    | .error e => .error e
    | .ok colVals =>
        if isDatetimeCol colVals then .ok (df, value)
        else
          match coerceColumn df col with
          | .error e => .error e
          | .ok df' =>
              match coerceValue cl value with
              | .error e => .error e
              | .ok value' => .ok (df', value')
  else .ok (df, value)

inductive OpTag : Type
  | eq | ne | gt | lt | ge | le | isin | notIn | contains | notContains
deriving DecidableEq

/-- The `operator_map` dictionary of lines 860-871. -/
def opLookup (s : String) : Option OpTag :=
  if s = "eq" then some .eq
  else if s = "ne" then some .ne
  else if s = "gt" then some .gt
  else if s = "lt" then some .lt
  else if s = "ge" then some .ge
  else if s = "le" then some .le
  else if s = "in" then some .isin
  else if s = "not_in" then some .notIn
  else if s = "contains" then some .contains
  else if s = "not_contains" then some .notContains
  else none

def toNumQ : Scalar → Option ℚ
  | .int n => some (n : ℚ)
  | .float q => some q
  | .bool b => some (if b then 1 else 0)
  | _ => none

/-- Pandas equality between a cell and a payload scalar: numeric kinds
(`int`, `float`, `bool`) compare by value, other kinds compare within
the same tag and differ across tags. -/
def eqScalar (a b : Scalar) : Bool :=
  match toNumQ a, toNumQ b with
  | some x, some y => decide (x = y)
  | _, _ => decide (a = b)

/-- Pandas `<` between a cell and a payload scalar: numeric kinds by
value, strings lexicographically, dates chronologically; any other
mixture raises a `TypeError`. -/
def ltScalarE (a b : Scalar) : Except String Bool :=
  match toNumQ a, toNumQ b with
  | some x, some y => .ok (decide (x < y))
  | _, _ =>
      match a, b with
      | .str s, .str t => .ok (decide (s < t))
      | .date s, .date t => .ok (decide (s < t))
      | _, _ => .error "TypeError: unorderable types"

def containsCell (pat : String) (c : Scalar) : Except String Bool :=
  match c with
  | .str t => .ok (decide (List.IsInfix pat.data t.data))
  | _ => .error "AttributeError: Can only use .str accessor with string values"

/-- The per-condition mask of line 894, `op_func(df[col], value)`,
elementwise over the column cells. -/
def applyOpTag (t : OpTag) (cells : List Scalar) (v : FValue) :
    Except String (List Bool) :=
  match t, v with
  | .eq, .scalar s => .ok (cells.map (fun c => eqScalar c s))
  | .eq, .list es =>
      if cells.length = es.length then .ok ((cells.zip es).map (fun p => eqScalar p.1 p.2))
      else .error "ValueError: Lengths must match to compare"
  | .ne, .scalar s => .ok (cells.map (fun c => !eqScalar c s))
  | .ne, .list es =>
      if cells.length = es.length then .ok ((cells.zip es).map (fun p => !eqScalar p.1 p.2))
      else .error "ValueError: Lengths must match to compare"
  | .gt, .scalar s => cells.mapM (fun c => ltScalarE s c)
  | .gt, .list es =>
      if cells.length = es.length then (cells.zip es).mapM (fun p => ltScalarE p.2 p.1)
      else .error "ValueError: Lengths must match to compare"
  | .lt, .scalar s => cells.mapM (fun c => ltScalarE c s)
  | .lt, .list es =>
      if cells.length = es.length then (cells.zip es).mapM (fun p => ltScalarE p.1 p.2)
      else .error "ValueError: Lengths must match to compare"
  | .ge, .scalar s => cells.mapM (fun c => (ltScalarE c s).map (!·))
  | .ge, .list es =>
      if cells.length = es.length then (cells.zip es).mapM (fun p => (ltScalarE p.1 p.2).map (!·))
      else .error "ValueError: Lengths must match to compare"
  | .le, .scalar s => cells.mapM (fun c => (ltScalarE s c).map (!·))
  | .le, .list es =>
      if cells.length = es.length then (cells.zip es).mapM (fun p => (ltScalarE p.2 p.1).map (!·))
      else .error "ValueError: Lengths must match to compare"
  | .isin, .list es => .ok (cells.map (fun c => es.any (fun e => eqScalar c e)))
  | .isin, .scalar _ => .error "TypeError: only list-like objects are allowed to be passed to isin"
  | .notIn, .list es => .ok (cells.map (fun c => !es.any (fun e => eqScalar c e)))
  | .notIn, .scalar _ => .error "TypeError: only list-like objects are allowed to be passed to isin"
  | .contains, .scalar (.str p) => cells.mapM (containsCell p)
  | .contains, _ => .error "TypeError: contains pattern must be a string"
  | .notContains, .scalar (.str p) => (cells.mapM (containsCell p)).map (List.map (!·))
  | .notContains, _ => .error "TypeError: contains pattern must be a string"

structure FilterCond : Type where
  column : String
  operator : Option String
  value : FValue
  data_type : Option String
deriving DecidableEq

/-- The body of the `for filter_ in filters` loop for one condition
(lines 873-895).  Order of effects follows the source: the date stage
(which touches `df[col]` inside the dtype test) runs first when the
resolved type is "date", then the operator tag is looked up, raising
the unsupported-operator `ValueError` when absent, then the mask is
computed.  The possibly coerced table is threaded on. -/
def evalCore (cl : Bool) (df : List Row) (col : String) (op : String)
    (value : FValue) (dtOpt : Option String) :
    Except String (List Row × List Bool) :=
  match dateStage cl df col value (dtOpt.getD (inferDtype value)) with
  | .error e => .error e
  | .ok (df', value') =>
      match opLookup op with
      | none => .error ("不支持的运算符: " ++ op)
      | some t =>
          match getColumn df' col with
          | .error e => .error e
          | .ok cells =>
              match applyOpTag t cells value' with
              | .error e => .error e
              | .ok mask => .ok (df', mask)

def evalConditionGen (cl : Bool) (df : List Row) (f : FilterCond) :
    Except String (List Row × List Bool) :=
  evalCore cl df f.column (f.operator.getD "eq") f.value f.data_type

def evalFilters (cl : Bool) (df : List Row) :
    List FilterCond → Except String (List Row × List (List Bool))
  | [] => .ok (df, [])
  | f :: fs =>
      match evalConditionGen cl df f with
      | .error e => .error e
      | .ok (df', m) =>
          match evalFilters cl df' fs with
          | .error e => .error e
          | .ok (df'', ms) => .ok (df'', m :: ms)

/-- Lines 896-902: `pd.concat(mask_list, axis=1).all(axis=1)` for "and",
`.any(axis=1)` for "or", `ValueError` otherwise. -/
def combineMasks (mode : String) (ms : List (List Bool)) (n : ℕ) :
    Except String (List Bool) :=
  if mode = "and" then .ok ((List.range n).map (fun i => ms.all (fun m => m.getD i false)))
  else if mode = "or" then .ok ((List.range n).map (fun i => ms.any (fun m => m.getD i false)))
  else .error "operator_type 必须是 'and' 或 'or'"

def selectRows (df : List Row) (mask : List Bool) : List Row :=
  (df.zip mask).filterMap (fun p => if p.2 then some p.1 else none)

def applyFiltersGen (cl : Bool) (df : List Row) (filters : List FilterCond)
    (operator_type : String) : Except String (List Row) :=
  if filters.isEmpty then .ok df
  else
    match evalFilters cl df filters with
    | .error e => .error e
    | .ok (df', ms) =>
        match combineMasks operator_type ms df'.length with
        | .error e => .error e
        | .ok mask => .ok (selectRows df' mask)

/-- The source function `apply_filters_for_data_frame` (lines 814-904):
input table as records, filter payload, combination mode. -/
def apply_filters_for_data_frame (df : List Row) (filters : List FilterCond)
    (operator_type : String) : Except String (List Row) :=
  applyFiltersGen false df filters operator_type

/-- Modelled from the spec: identical to the source function except that
for a condition with the explicit data-type tag "date" every element of
a list comparison value is also coerced to a date before comparison
("both the column and the comparison value(s) are coerced"). -/
def apply_filters_spec_date (df : List Row) (filters : List FilterCond)
    (operator_type : String) : Except String (List Row) :=
  applyFiltersGen true df filters operator_type

def isListFV : FValue → Bool
  | .list _ => true
  | _ => false

/-! ## Arithmetic service (`arithmatic_server.py`) -/

/-- The `divide` tool (lines 21-24): `return a / b`, the division being
unguarded so that Python raises `ZeroDivisionError` when `b == 0`. -/
def divide (a b : ℚ) : Except String ℚ :=
  if b = 0 then .error "ZeroDivisionError: float division by zero"
  else .ok (a / b)

/-! ## Concrete example data used by witnesses and counterexamples -/

/-- Ten zeros, one extreme value, and one trailing missing value: the
forward fill duplicates the extreme value before the outlier filter
sees the column. -/
def exC3 : List (ℚ × Option ℚ) :=
  [(0, some 0), (1, some 0), (2, some 0), (3, some 0), (4, some 0),
   (5, some 0), (6, some 0), (7, some 0), (8, some 0), (9, some 0),
   (10, some 1000), (11, none)]

def exPercCol : List (Option ℚ) := List.replicate 59 (some 0) ++ [some 1]

def exC8col : List PdCell := [PdCell.num 1, PdCell.pinf, PdCell.num 3]

def exC5df : List Row := [[("B", Scalar.int 10)]]

def exC5f : FilterCond := ⟨"B", some "foo", FValue.scalar (Scalar.int 5), none⟩

def exC7df : List Row := [[("dt", Scalar.str "2020-01-02")]]

def exC7f : FilterCond := ⟨"dt", some "in", FValue.list [Scalar.str "foo"], some "date"⟩

def exC7fscalar : FilterCond :=
  ⟨"dt", some "eq", FValue.scalar (Scalar.str "2020-01-02"), some "date"⟩

def exC9df : List Row := [[("A", Scalar.int 1)], [("A", Scalar.int 2)]]

def exC9f : FilterCond := ⟨"A", none, FValue.scalar (Scalar.int 1), none⟩

/-! ## Helper lemmas about the fill passes -/

theorem ffillAux_some_isSome {α : Type} :
    ∀ (l : List (Option α)) (a : α) (y : Option α), y ∈ ffillAux (some a) l → y.isSome
  | [], _, y => by intro hy; simp [ffillAux] at hy
  | some v :: t, _, y => by
      intro hy
      simp only [ffillAux, List.mem_cons] at hy
      rcases hy with rfl | hy
      · rfl
      · exact ffillAux_some_isSome t v y hy
  | none :: t, a, y => by
      intro hy
      simp only [ffillAux, List.mem_cons] at hy
      rcases hy with rfl | hy
      · rfl
      · exact ffillAux_some_isSome t a y hy

theorem ffillAux_append {α : Type} (v : α) (t : List (Option α)) :
    ∀ (s : List (Option α)) (acc : Option α),
      ffillAux acc (s ++ some v :: t) = ffillAux acc s ++ some v :: ffillAux (some v) t
  | [], acc => by simp [ffillAux]
  | some w :: s, acc => by
      simp only [List.cons_append, ffillAux, List.append_eq, ffillAux_append v t s (some w)]
  | none :: s, acc => by
      simp only [List.cons_append, ffillAux, List.append_eq, ffillAux_append v t s acc]

theorem ffillAux_append_isSome {α : Type} :
    ∀ (xs ys : List (Option α)) (acc : Option α),
      (∀ x ∈ xs, x.isSome) → xs ≠ [] → ∀ y ∈ ffillAux acc (xs ++ ys), y.isSome
  | [], _, _, _, hne => absurd rfl hne
  | x :: xs, ys, acc, hall, _ => by
      intro y hy
      have hx : x.isSome := hall x (List.mem_cons_self x xs)
      obtain ⟨v, rfl⟩ := Option.isSome_iff_exists.mp hx
      simp only [List.cons_append, ffillAux, List.mem_cons] at hy
      rcases hy with rfl | hy
      · rfl
      · cases xs with
        | nil =>
            exact ffillAux_some_isSome ys v y hy
        | cons b bs =>
            exact ffillAux_append_isSome (b :: bs) ys (some v)
              (fun z hz => hall z (List.mem_cons_of_mem _ hz)) (by simp) y hy

/-- Resolution of gaps: as soon as one entry of a column is present, the
forward-fill pass followed by the backward-fill pass leaves no missing
entry. -/
theorem bfill_ffill_isSome {α : Type} (l : List (Option α))
    (hx : ∃ x ∈ l, x.isSome) : ∀ y ∈ bfill (ffill l), y.isSome := by
  obtain ⟨x, hxl, hxs⟩ := hx
  obtain ⟨v, rfl⟩ := Option.isSome_iff_exists.mp hxs
  obtain ⟨s, t, rfl⟩ := List.append_of_mem hxl
  intro y hy
  rw [bfill, ffill, ffillAux_append v t s none, List.reverse_append,
    List.mem_reverse] at hy
  refine ffillAux_append_isSome ((some v :: ffillAux (some v) t).reverse)
    ((ffillAux none s).reverse) none ?_ (by simp) y hy
  intro z hz
  rw [List.mem_reverse] at hz
  rcases List.mem_cons.mp hz with rfl | hz
  · rfl
  · exact ffillAux_some_isSome t v z hz

theorem interpAt_of_present (l : List (Option ℚ)) (i : ℕ) (v : ℚ)
    (h : l[i]? = some (some v)) : interpAt l i = some v := by
  rw [interpAt, List.getD_eq_getElem?_getD, h]
  rfl

theorem mem_of_getLast?_eq {α : Type} {l : List α} {a : α}
    (h : l.getLast? = some a) : a ∈ l := by
  obtain ⟨hne, heq⟩ := List.mem_getLast?_eq_getLast (Option.mem_def.mpr h)
  rw [heq]
  exact List.getLast_mem hne

/-! ## Helper lemmas about the percentile formula -/

theorem safePercentile_eq (wd : List (Option ℚ)) (c : ℚ)
    (h60 : 60 ≤ (validOf wd).length) (hc : (validOf wd).getLast? = some c) :
    safePercentile wd =
      some (indicatorMean ((validOf wd).dropLast.map (fun x => decide (x < c))) * 100) := by
  rw [safePercentile]
  simp only [hc]
  rw [if_neg (by omega)]

theorem indicatorMean_count (L : List ℚ) (c : ℚ) :
    indicatorMean (L.map (fun x => decide (x < c))) * 100 =
      100 * ((L.filter (fun x => decide (x < c))).length : ℚ) / (L.length : ℚ) := by
  rw [indicatorMean, List.filter_map, List.length_map, List.length_map]
  have hcomp : ((fun b => b) ∘ fun x => decide (x < c)) = fun x => decide (x < c) := rfl
  rw [hcomp]
  ring

/-! ## Helper lemmas about the record filter engine -/

theorem evalFilters_append (cl : Bool) :
    ∀ (l₁ : List FilterCond) (df df' : List Row) (ms : List (List Bool))
      (l₂ : List FilterCond),
      evalFilters cl df l₁ = .ok (df', ms) →
      evalFilters cl df (l₁ ++ l₂) =
        (match evalFilters cl df' l₂ with
         | .error e => .error e
         | .ok (df'', ms') => .ok (df'', ms ++ ms'))
  | [], df, df', ms, l₂ => by
      intro h
      rw [evalFilters] at h
      injection h with h'
      have hd : df = df' := congrArg Prod.fst h'
      have hm : ([] : List (List Bool)) = ms := congrArg Prod.snd h'
      subst hd
      rw [← hm, List.nil_append]
      cases hev : evalFilters cl df l₂ with
      | error e => rfl
      | ok pr =>
          obtain ⟨a, b⟩ := pr
          simp
  | f :: fs, df, df', ms, l₂ => by
      intro h
      rw [evalFilters] at h
      cases hc : evalConditionGen cl df f with
      | error e => rw [hc] at h; exact Except.noConfusion h
      | ok pm =>
          obtain ⟨d1, m⟩ := pm
          rw [hc] at h
          have h2 : (match evalFilters cl d1 fs with
              | Except.error e => (Except.error e : Except String (List Row × List (List Bool)))
              | Except.ok (df'', msr) => Except.ok (df'', m :: msr)) = Except.ok (df', ms) := h
          cases hf : evalFilters cl d1 fs with
          | error e => rw [hf] at h2; exact Except.noConfusion h2
          | ok pr =>
              obtain ⟨d2, ms2⟩ := pr
              rw [hf] at h2
              have h3 : (Except.ok (d2, m :: ms2) :
                  Except String (List Row × List (List Bool))) = Except.ok (df', ms) := h2
              injection h3 with h'
              have hd : d2 = df' := congrArg Prod.fst h'
              have hm : m :: ms2 = ms := congrArg Prod.snd h'
              subst hd
              have hL : evalFilters cl df ((f :: fs) ++ l₂) =
                  (match evalFilters cl d1 (fs ++ l₂) with
                   | Except.error e => Except.error e
                   | Except.ok (df'', msr) => Except.ok (df'', m :: msr)) := by
                rw [List.cons_append, evalFilters, hc]
              rw [hL, evalFilters_append cl fs d1 d2 ms2 l₂ hf, ← hm]
              cases evalFilters cl d2 l₂ with
              | error e => rfl
              | ok pr2 =>
                  obtain ⟨a, b⟩ := pr2
                  simp

theorem dateStage_list_free (df : List Row) (col : String) (value : FValue)
    (dt : String) (h : dt = "date" → isListFV value = false) :
    dateStage true df col value dt = dateStage false df col value dt := by
  cases value with
  | scalar s => rfl
  | list es =>
      by_cases hdt : dt = "date"
      · exact absurd (h hdt) (by simp [isListFV])
      · simp [dateStage, hdt]

theorem evalCore_list_free (df : List Row) (col : String) (op : String)
    (value : FValue) (dtOpt : Option String)
    (h : dtOpt.getD (inferDtype value) = "date" → isListFV value = false) :
    evalCore true df col op value dtOpt = evalCore false df col op value dtOpt := by
  rw [evalCore, evalCore, dateStage_list_free df col value _ h]

theorem evalFilters_list_free :
    ∀ (filters : List FilterCond) (df : List Row),
      (∀ f ∈ filters,
        f.data_type.getD (inferDtype f.value) = "date" → isListFV f.value = false) →
      evalFilters true df filters = evalFilters false df filters
  | [], _, _ => rfl
  | f :: fs, df, h => by
      have hcond : evalConditionGen true df f = evalConditionGen false df f :=
        evalCore_list_free df f.column (f.operator.getD "eq") f.value f.data_type
          (h f (List.mem_cons_self f fs))
      rw [evalFilters, evalFilters, hcond]
      cases hc : evalConditionGen false df f with
      | error e => rfl
      | ok pm =>
          obtain ⟨d1, m⟩ := pm
          show (match evalFilters true d1 fs with
                | Except.error e => (Except.error e :
                    Except String (List Row × List (List Bool)))
                | Except.ok (df'', msr) => Except.ok (df'', m :: msr)) =
              (match evalFilters false d1 fs with
                | Except.error e => Except.error e
                | Except.ok (df'', msr) => Except.ok (df'', m :: msr))
          rw [evalFilters_list_free fs d1 (fun g hg => h g (List.mem_cons_of_mem f hg))]

/-! ## Claim theorems -/

/-- C1 (counterexample): it is not true that every secondary-sourced
value of every aligned table produced by the engine comes from a
secondary observation dated at or before the row's primary date: in the
`get_stock_indicator` merge of a percentile column (exact-date left
join followed by `ffill().bfill()`), a primary row dated before every
secondary observation receives, through the backward fill, a value
observed at a strictly later date.  Concretely, with primary dates
`[1, 2]` and the single secondary observation `(2, 5)`, the row dated
`1` carries the value `5` although no secondary date is `≤ 1`. -/
theorem C1_counterexample_indicator_bfill_lookahead :
    ¬ ∀ (P : List ℚ) (S : List (ℚ × ℚ)) (d v : ℚ),
        (d, some v) ∈ indicator_merge_col P S → ∃ p ∈ S, p.1 ≤ d ∧ p.2 = v := by
  intro hcl
  exact absurd (hcl [1, 2] [(2, 5)] 1 5 (by decide)) (by decide)

/-- C1 (amended): the backward as-of alignment step itself
(`pd.merge_asof(..., direction="backward")`, used for the `pe` and
`roe` merges of `get_single_stock_info`) is strictly backward: any
value attached to an aligned row comes from a secondary observation
whose date is at most the row's primary date.  The `pe_percentile` and
`pb_percentile` columns of `get_stock_indicator`, however, are attached
by an exact-date left join whose gaps are then forward- and
backward-filled, and the backward fill can attach a value observed at a
later date (see the counterexample). -/
theorem C1_merge_asof_backward_no_lookahead (P : List ℚ) (S : List (ℚ × ℚ))
    (d v : ℚ) (h : (d, some v) ∈ merge_asof_backward P S) :
    ∃ p ∈ S, p.1 ≤ d ∧ p.2 = v := by
  rw [merge_asof_backward] at h
  obtain ⟨d0, hd0, heq⟩ := List.mem_map.mp h
  rw [Prod.mk.injEq] at heq
  obtain ⟨hd, hv⟩ := heq
  subst hd
  cases hg : (S.filter (fun p => decide (p.1 ≤ d0))).getLast? with
  | none => rw [hg] at hv; exact Option.noConfusion hv
  | some q =>
      rw [hg] at hv
      have hq := List.mem_filter.mp (mem_of_getLast?_eq hg)
      refine ⟨q, hq.1, of_decide_eq_true hq.2, ?_⟩
      simpa using hv

/-- C1 (witness): the amended theorem applied to the primary calendar
`[10]` and the single secondary observation `(9, 7)`. -/
theorem C1_merge_asof_backward_no_lookahead_witness :
    (10, some 7) ∈ merge_asof_backward [10] [(9, 7)] ∧
    ∃ p ∈ [((9 : ℚ), (7 : ℚ))], p.1 ≤ 10 ∧ p.2 = 7 :=
  ⟨by decide, C1_merge_asof_backward_no_lookahead [10] [(9, 7)] 10 7 (by decide)⟩

/-- C2 (confirmed): at every window position whose window holds at least
60 valid observations, the rolling result equals 100 times the count of
history observations (the valid window observations except the current
one, i.e. the last valid one) strictly below the current value, divided
by the count of history observations; and ties contribute nothing: the
count is unchanged when the history observations equal to the current
value are removed. -/
theorem C2_percentile_strict_rank (col : List (Option ℚ)) (w i : ℕ) (c : ℚ)
    (hi : i < col.length)
    (h60 : 60 ≤ (validOf (windowAt col w i)).length)
    (hc : (validOf (windowAt col w i)).getLast? = some c) :
    (rawRolling col w)[i]? =
      some (some (100 *
        (((validOf (windowAt col w i)).dropLast.filter (fun x => decide (x < c))).length : ℚ) /
        (((validOf (windowAt col w i)).dropLast.length : ℚ)))) ∧
    ((validOf (windowAt col w i)).dropLast.filter (fun x => decide (x < c))).length =
      (((validOf (windowAt col w i)).dropLast.filter (fun x => decide (¬ x = c))).filter
        (fun x => decide (x < c))).length := by
  constructor
  · have hmap : (rawRolling col w)[i]? = some (safePercentile (windowAt col w i)) := by
      simp [rawRolling, List.getElem?_range hi]
    rw [hmap, safePercentile_eq (windowAt col w i) c h60 hc,
      indicatorMean_count ((validOf (windowAt col w i)).dropLast) c]
  · rw [List.filter_filter]
    refine congrArg List.length (List.filter_congr ?_)
    intro x _
    by_cases hx : x < c
    · simp [hx, ne_of_lt hx]
    · simp [hx]

/-- C2 (witness): a window of 59 zeros followed by the value 1: sixty
valid observations, current value 1, all 59 history values strictly
below it. -/
theorem C2_percentile_strict_rank_witness :
    59 < exPercCol.length ∧
    60 ≤ (validOf (windowAt exPercCol 1260 59)).length ∧
    (validOf (windowAt exPercCol 1260 59)).getLast? = some 1 ∧
    ((rawRolling exPercCol 1260)[59]? =
      some (some (100 *
        (((validOf (windowAt exPercCol 1260 59)).dropLast.filter
            (fun x => decide (x < 1))).length : ℚ) /
        (((validOf (windowAt exPercCol 1260 59)).dropLast.length : ℚ)))) ∧
    ((validOf (windowAt exPercCol 1260 59)).dropLast.filter
        (fun x => decide (x < 1))).length =
      (((validOf (windowAt exPercCol 1260 59)).dropLast.filter
          (fun x => decide (¬ x = 1))).filter (fun x => decide (x < 1))).length) :=
  ⟨by decide, by decide, by decide,
    C2_percentile_strict_rank exPercCol 1260 59 1 (by decide) (by decide) (by decide)⟩

/-- Evaluation of the code's PE cleaning step on the concrete series
`exC3`: the forward-filled population has mean `500/3` and sample
variance `5000000/33`, and every row — including the two rows carrying
the extreme value, one of them filled in — lies inside the widened
band, so all 12 rows are kept. -/
theorem pe_clean_exC3_eval :
    pe_clean exC3 =
      [(0, some 0), (1, some 0), (2, some 0), (3, some 0), (4, some 0),
       (5, some 0), (6, some 0), (7, some 0), (8, some 0), (9, some 0),
       (10, some 1000), (11, some 1000)] := by
  have hff : ffillRows exC3 =
      [(0, some 0), (1, some 0), (2, some 0), (3, some 0), (4, some 0),
       (5, some 0), (6, some 0), (7, some 0), (8, some 0), (9, some 0),
       (10, some 1000), (11, some 1000)] := rfl
  have hpop : popOf (ffillRows exC3) =
      [(0 : ℚ), 0, 0, 0, 0, 0, 0, 0, 0, 0, 1000, 1000] := by rw [hff]; rfl
  have hmean : mean [(0 : ℚ), 0, 0, 0, 0, 0, 0, 0, 0, 0, 1000, 1000] = 500 / 3 := by
    norm_num [mean, List.foldl_cons, List.foldl_nil]
  have hvar : sampleVar [(0 : ℚ), 0, 0, 0, 0, 0, 0, 0, 0, 0, 1000, 1000] =
      5000000 / 33 := by
    norm_num [sampleVar, hmean, List.foldl_cons, List.foldl_nil]
  rw [pe_clean, filter_abnormal_3delta, hpop, hmean, hvar, hff]
  norm_num [List.filter_cons, List.filter_nil]

/-- Evaluation of the spec-modelled order (filter first, fill
afterwards) on `exC3`: the unfilled population has mean `1000/11` and
sample variance `1000000/11`, the extreme row falls outside the band
and is dropped (so is the missing row), and nothing remains to fill. -/
theorem spec_pe_clean_exC3_eval :
    spec_pe_clean exC3 =
      [(0, some 0), (1, some 0), (2, some 0), (3, some 0), (4, some 0),
       (5, some 0), (6, some 0), (7, some 0), (8, some 0), (9, some 0)] := by
  have hpop : popOf exC3 = [(0 : ℚ), 0, 0, 0, 0, 0, 0, 0, 0, 0, 1000] := rfl
  have hmean : mean [(0 : ℚ), 0, 0, 0, 0, 0, 0, 0, 0, 0, 1000] = 1000 / 11 := by
    norm_num [mean, List.foldl_cons, List.foldl_nil]
  have hvar : sampleVar [(0 : ℚ), 0, 0, 0, 0, 0, 0, 0, 0, 0, 1000] =
      1000000 / 11 := by
    norm_num [sampleVar, hmean, List.foldl_cons, List.foldl_nil]
  have hfl : filter_abnormal_3delta exC3 =
      [(0, some 0), (1, some 0), (2, some 0), (3, some 0), (4, some 0),
       (5, some 0), (6, some 0), (7, some 0), (8, some 0), (9, some 0)] := by
    rw [filter_abnormal_3delta, hpop, hmean, hvar]
    norm_num [exC3, List.filter_cons, List.filter_nil]
  rw [spec_pe_clean, hfl]
  rfl

/-- C3 (counterexample): the 3-sigma filter of `get_stock_pe` /
`get_stock_pb` does NOT run before the gap-filling of the value column:
the forward fill of line 187 runs first, so the filled-in copy of the
value 1000 belongs to the population from which the mean and standard
deviation are computed, and the result differs from the spec-modelled
order (filter first, fill afterwards): on `exC3` the code keeps all 12
rows (the duplicated extreme value widens the band) while the
spec-modelled order drops the extreme row. -/
theorem C3_counterexample_ffill_before_filter :
    popOf (ffillRows exC3) = [0, 0, 0, 0, 0, 0, 0, 0, 0, 0, 1000, 1000] ∧
    pe_clean exC3 ≠ spec_pe_clean exC3 := by
  refine ⟨rfl, fun h => ?_⟩
  rw [pe_clean_exC3_eval, spec_pe_clean_exC3_eval] at h
  have := congrArg List.length h
  simp at this

/-- C3 (amended): in the PE and PB pipelines the 3-sigma filter is
applied once, after the forward fill of the value column and before the
gap-filling inside the percentile computation; consequently the band is
computed from the forward-filled population: every value retained by
the cleaning step lies strictly inside the band whose mean and sample
variance come from the present values of the forward-filled column
(which include the filled-in values). -/
theorem C3_filter_band_from_ffilled_population (rows : List (ℚ × Option ℚ))
    (d x : ℚ) (h : (d, some x) ∈ pe_clean rows) :
    (x - mean (popOf (ffillRows rows))) ^ 2 < 9 * sampleVar (popOf (ffillRows rows)) := by
  rw [pe_clean, filter_abnormal_3delta] at h
  exact of_decide_eq_true (List.mem_filter.mp h).2

/-- C3 (witness): the amended theorem applied to the row `(0, 0)` of
the concrete series `exC3`, which the cleaning step retains. -/
theorem C3_filter_band_from_ffilled_population_witness :
    ((0 : ℚ), some (0 : ℚ)) ∈ pe_clean exC3 ∧
    ((0 : ℚ) - mean (popOf (ffillRows exC3))) ^ 2 <
      9 * sampleVar (popOf (ffillRows exC3)) :=
  ⟨by rw [pe_clean_exC3_eval]; exact List.mem_cons_self _ _,
    C3_filter_band_from_ffilled_population exC3 0 0
      (by rw [pe_clean_exC3_eval]; exact List.mem_cons_self _ _)⟩

/-- C4 (confirmed): at every window position with fewer than 60 valid
observations the raw rolling result is missing (`none`, never a default
number; the Lean model is a total function, so no exception arises),
and the percentile-column smoothing pass — linear interpolation, then
forward fill, then backward fill — resolves every missing entry as soon
as any window position produced a value. -/
theorem C4_insufficient_window_missing_then_smoothed (col : List (Option ℚ))
    (w i : ℕ) (hi : i < col.length)
    (hlt : (validOf (windowAt col w i)).length < 60) :
    (rawRolling col w)[i]? = some none ∧
    ((∃ x ∈ rawRolling col w, x.isSome) →
      ∀ y ∈ calculatePercentileCol col w, y.isSome) := by
  constructor
  · simp [rawRolling, List.getElem?_range hi, safePercentile, hlt]
  · rintro ⟨x, hx, hxs⟩ y hy
    obtain ⟨v, rfl⟩ := Option.isSome_iff_exists.mp hxs
    obtain ⟨n, hn⟩ := List.mem_iff_getElem?.mp hx
    have hnlen : n < (rawRolling col w).length := (List.getElem?_eq_some.mp hn).1
    have hnlen' : n < (List.range (rawRolling col w).length).length := by
      simpa using hnlen
    have hI : (interpLinear (rawRolling col w))[n]? = some (some v) := by
      rw [interpLinear, List.getElem?_map, List.getElem?_range (by simpa using hnlen)]
      rw [Option.map_some', interpAt_of_present _ _ _ hn]
    have hmem : some v ∈ interpLinear (rawRolling col w) :=
      List.mem_iff_getElem?.mpr ⟨n, hI⟩
    rw [calculatePercentileCol] at hy
    exact bfill_ffill_isSome _ ⟨some v, hmem, rfl⟩ y hy

/-- C4 (witness): position 0 of the series of 59 zeros and a 1 has a
single-observation window, so its raw percentile is missing, while
position 59 produces a value, so the smoothed column is everywhere
present. -/
theorem C4_insufficient_window_missing_then_smoothed_witness :
    0 < exPercCol.length ∧
    (validOf (windowAt exPercCol 1260 0)).length < 60 ∧
    ((rawRolling exPercCol 1260)[0]? = some none ∧
      ((∃ x ∈ rawRolling exPercCol 1260, x.isSome) →
        ∀ y ∈ calculatePercentileCol exPercCol 1260, y.isSome)) :=
  ⟨by decide, by decide,
    C4_insufficient_window_missing_then_smoothed exPercCol 1260 0 (by decide) (by decide)⟩

/-- C5 (confirmed): when the filter list splits as `pre ++ f :: post`
where the conditions of `pre` evaluate without error and `f` carries an
operator tag outside the recognized set (its date stage succeeding, so
that no earlier structural error preempts the operator lookup), the
whole evaluation fails at evaluation time with the explicit
unsupported-operator `ValueError` and returns no rows, whatever the
combination mode. -/
theorem C5_unsupported_operator_errors (df : List Row) (pre post : List FilterCond)
    (f : FilterCond) (mode : String) (df' : List Row) (ms : List (List Bool))
    (p : List Row × FValue)
    (hpre : evalFilters false df pre = .ok (df', ms))
    (hdate : dateStage false df' f.column f.value
      (f.data_type.getD (inferDtype f.value)) = .ok p)
    (hop : opLookup (f.operator.getD "eq") = none) :
    apply_filters_for_data_frame df (pre ++ f :: post) mode =
      .error ("不支持的运算符: " ++ f.operator.getD "eq") := by
  have hstep : evalFilters false df' (f :: post) =
      .error ("不支持的运算符: " ++ f.operator.getD "eq") := by
    rw [evalFilters, evalConditionGen, evalCore, hdate]
    obtain ⟨dfp, vp⟩ := p
    rw [hop]
  have hne : (pre ++ f :: post).isEmpty = false := by cases pre <;> rfl
  rw [apply_filters_for_data_frame, applyFiltersGen, hne]
  simp only [Bool.false_eq_true, if_false]
  rw [evalFilters_append false pre df df' ms (f :: post) hpre, hstep]

/-- C5 (witness): the single condition on column "B" with the operator
tag "foo" over a one-row table. -/
theorem C5_unsupported_operator_errors_witness :
    evalFilters false exC5df [] = .ok (exC5df, []) ∧
    dateStage false exC5df exC5f.column exC5f.value
      (exC5f.data_type.getD (inferDtype exC5f.value)) =
        .ok (exC5df, exC5f.value) ∧
    opLookup (exC5f.operator.getD "eq") = none ∧
    apply_filters_for_data_frame exC5df [exC5f] "and" =
      .error ("不支持的运算符: " ++ exC5f.operator.getD "eq") :=
  ⟨rfl, rfl, rfl,
    C5_unsupported_operator_errors exC5df [] [] exC5f "and" exC5df []
      (exC5df, exC5f.value) rfl rfl rfl⟩

/-- C6 (confirmed): filtering with an empty condition list is the
identity transform: the records returned are exactly the input rows,
with the same values, the same columns and the same order. -/
theorem C6_empty_filters_identity (df : List Row) (mode : String) :
    apply_filters_for_data_frame df [] mode = .ok df := rfl

/-- C7 (counterexample): a condition with the explicit data-type tag
"date" whose comparison value is a list does NOT have its elements
coerced: on a one-row table whose "dt" column holds the string
"2020-01-02", the condition `in ["foo"]` with data type "date" makes
the code coerce the column only and return no rows successfully, while
the spec-modelled variant that coerces every list element fails on the
unparseable element — the two observably differ, so the element was
never coerced. -/
theorem C7_counterexample_list_value_not_coerced :
    apply_filters_for_data_frame exC7df [exC7f] "and" = .ok [] ∧
    apply_filters_spec_date exC7df [exC7f] "and" =
      .error "to_datetime parse error: foo" :=
  ⟨rfl, rfl⟩

/-- C7 (amended): for a condition carrying the data-type tag "date" the
named column is coerced to dates, and the comparison value is coerced
too when it is a scalar; the elements of a list comparison value are
left uncoerced.  Hence on any filter list none of whose date-typed
conditions carries a list value, the code agrees with the spec-modelled
full-coercion variant. -/
theorem C7_date_coercion_scalar_value (df : List Row) (filters : List FilterCond)
    (mode : String)
    (h : ∀ f ∈ filters,
      f.data_type.getD (inferDtype f.value) = "date" → isListFV f.value = false) :
    apply_filters_spec_date df filters mode =
      apply_filters_for_data_frame df filters mode := by
  rw [apply_filters_spec_date, apply_filters_for_data_frame, applyFiltersGen,
    applyFiltersGen, evalFilters_list_free filters df h]

/-- C7 (witness): a scalar-valued date condition (equality against the
string "2020-01-02") behaves identically under the code and under the
spec-modelled full coercion. -/
theorem C7_date_coercion_scalar_value_witness :
    (∀ f ∈ [exC7fscalar],
      f.data_type.getD (inferDtype f.value) = "date" → isListFV f.value = false) ∧
    apply_filters_spec_date exC7df [exC7fscalar] "and" =
      apply_filters_for_data_frame exC7df [exC7fscalar] "and" :=
  ⟨fun f hf _ => by cases List.mem_singleton.mp hf; rfl,
    C7_date_coercion_scalar_value exC7df [exC7fscalar] "and"
      (fun f hf _ => by cases List.mem_singleton.mp hf; rfl)⟩

/-- C8 (confirmed): in the cleaning step of `get_single_stock_info`, a
`pe` cell holding positive or negative infinity becomes missing, every
missing cell is then filled with the median of the whole (already
merged) `pe` column — a whole-series statistic, not an interpolation or
a directional fill — and present cells pass through unchanged. -/
theorem C8_pe_inf_to_nan_fillna_median (col : List PdCell) (i : ℕ)
    (hi : i < col.length) :
    ((col[i]? = some PdCell.pinf ∨ col[i]? = some PdCell.ninf) →
      (col.map replaceInfByNan)[i]? = some none) ∧
    ((col.map replaceInfByNan)[i]? = some none →
      (single_stock_pe_clean col)[i]? =
        some (medianQ ((col.map replaceInfByNan).filterMap id))) ∧
    (∀ v : ℚ, (col.map replaceInfByNan)[i]? = some (some v) →
      (single_stock_pe_clean col)[i]? = some (some v)) := by
  refine ⟨?_, ?_, ?_⟩
  · rintro (h | h) <;> rw [List.getElem?_map, h] <;> rfl
  · intro h
    simp only [single_stock_pe_clean]
    rw [List.getElem?_map, h]
    rfl
  · intro v h
    simp only [single_stock_pe_clean]
    rw [List.getElem?_map, h]
    rfl

/-- C8 (witness): the column `[1, +inf, 3]`: the infinity at position 1
becomes missing and is filled with the median of the remaining column. -/
theorem C8_pe_inf_to_nan_fillna_median_witness :
    1 < exC8col.length ∧
    (((exC8col[1]? = some PdCell.pinf ∨ exC8col[1]? = some PdCell.ninf) →
      (exC8col.map replaceInfByNan)[1]? = some none) ∧
    ((exC8col.map replaceInfByNan)[1]? = some none →
      (single_stock_pe_clean exC8col)[1]? =
        some (medianQ ((exC8col.map replaceInfByNan).filterMap id))) ∧
    (∀ v : ℚ, (exC8col.map replaceInfByNan)[1]? = some (some v) →
      (single_stock_pe_clean exC8col)[1]? = some (some v))) :=
  ⟨by decide, C8_pe_inf_to_nan_fillna_median exC8col 1 (by decide)⟩

/-- C9 (confirmed): a condition without an "operator" key is evaluated
with the equality operator: the filter result is the same as for the
identical condition carrying the explicit tag "eq". -/
theorem C9_missing_operator_defaults_to_eq (df : List Row) (f : FilterCond)
    (mode : String) (h : f.operator = none) :
    apply_filters_for_data_frame df [f] mode =
      apply_filters_for_data_frame df [{ f with operator := some "eq" }] mode := by
  have hcond : evalConditionGen false df f =
      evalConditionGen false df { f with operator := some "eq" } := by
    rw [evalConditionGen, evalConditionGen, h]
    rfl
  rw [apply_filters_for_data_frame, apply_filters_for_data_frame, applyFiltersGen,
    applyFiltersGen, evalFilters, evalFilters, hcond]
  rfl

/-- C9 (witness): the operator-free equality condition on column "A"
over a two-row table. -/
theorem C9_missing_operator_defaults_to_eq_witness :
    exC9f.operator = none ∧
    apply_filters_for_data_frame exC9df [exC9f] "and" =
      apply_filters_for_data_frame exC9df [{ exC9f with operator := some "eq" }] "and" :=
  ⟨rfl, C9_missing_operator_defaults_to_eq exC9df exC9f "and" rfl⟩

/-- C10 (confirmed): the arithmetic service's divide operation returns
`a / b` for every non-zero divisor, and its division is unguarded: at
`b = 0` it fails with a division error instead of returning a value. -/
theorem C10_divide_unguarded (a b : ℚ) :
    (b ≠ 0 → divide a b = .ok (a / b)) ∧
    divide a 0 = .error "ZeroDivisionError: float division by zero" := by
  constructor
  · intro hb
    rw [divide, if_neg hb]
  · rw [divide, if_pos rfl]

/-- C10 (witness): dividing 6 by 2 succeeds with the quotient, dividing
6 by 0 fails with the division error. -/
theorem C10_divide_unguarded_witness :
    divide 6 2 = .ok (6 / 2) ∧
    divide 6 0 = .error "ZeroDivisionError: float division by zero" :=
  ⟨(C10_divide_unguarded 6 2).1 (by norm_num), (C10_divide_unguarded 6 0).2⟩

end StockMCP
